import Mathlib

/-!
# bancheck configuration loader (`cmd/bancheck/config/config.go`)

A shallow embedding of the loader that reads the ban lists of the `bancheck`
analyzer and merges them into one table per section.

* Go values of type `error` are represented by their message.
* A Go `map[string][]BannedIdent` is an association list with at most one pair
  per key; its order is never observed, every statement below goes through
  `index` (Go's `m[k]`) and `hasKey` (Go's `_, ok := m[k]`).
* A run-time panic (nil dereference) is the `Except.error` outcome; an ordinary
  Go return `(value, err)` is a pair of options, `none` standing for `nil`.
* The operating system and `encoding/json` are not part of the repository; every
  function takes them as the record `Env`.
-/

namespace Bancheck

/-! ## Data model -/

/-- Exemption of the source: a justification and a directory exempted from the check. -/
structure Exemption where
  Justification : String
  AllowedDir : String
deriving DecidableEq, Repr

/-- BannedIdent of the source: name, message and exemptions of one banned identifier. -/
structure BannedIdent where
  Name : String
  Msg : String
  Exemptions : List Exemption
deriving DecidableEq, Repr

/-- BannedIdents of the source, `map[string][]BannedIdent`, as an association list. -/
structure BannedIdents where
  entries : List (String × List BannedIdent)
deriving DecidableEq, Repr

/-- The struct `config` of the source: the two sections of one document. -/
structure config where
  Imports : List BannedIdent
  Functions : List BannedIdent
deriving DecidableEq, Repr

/-- A Go `error` value, represented by the text its `Error()` method returns. -/
structure GoError where
  text : String
deriving DecidableEq, Repr

/-- Run-time panics the loader can raise. -/
inductive Panic where
  | nilDereference
deriving DecidableEq, Repr

deriving instance DecidableEq for Except

/-! ## Go maps -/

/-- Value stored under `k` in an association list, if any. -/
def lookupEntries (k : String) : List (String × List BannedIdent) → Option (List BannedIdent)
  | [] => none
  | (k', v) :: rest => if k' = k then some v else lookupEntries k rest

/-- Association list after storing `v` under `k`: replaces the pair of `k`, or adds one. -/
def assignEntries (k : String) (v : List BannedIdent) :
    List (String × List BannedIdent) → List (String × List BannedIdent)
  | [] => [(k, v)]
  | (k', v') :: rest =>
    if k' = k then (k, v) :: rest else (k', v') :: assignEntries k v rest

/-- Go's `make(BannedIdents)`: the empty map. -/
def BannedIdents.make : BannedIdents := ⟨[]⟩

/-- Go's `m[k]`: the slice stored under `k`, the nil slice when `k` is absent. -/
def BannedIdents.index (m : BannedIdents) (k : String) : List BannedIdent :=
  match lookupEntries k m.entries with
  | some v => v
  | none => []

/-- Go's `_, ok := m[k]`: whether `k` is a key of the map. -/
def BannedIdents.hasKey (m : BannedIdents) (k : String) : Bool :=
  (lookupEntries k m.entries).isSome

/-- Go's `m[k] = v`. -/
def BannedIdents.assign (m : BannedIdents) (k : String) (v : List BannedIdent) : BannedIdents :=
  ⟨assignEntries k v m.entries⟩

/-! ## Environment: `os`, `ioutil` and `encoding/json` -/

/-- What kind of file a path names, as far as `FileInfo.IsDir` and the claims distinguish. -/
inductive FileKind where
  | regular
  | directory
  | namedPipe
  | socket
  | device
  | charDevice
deriving DecidableEq, Repr

/-- The `os.FileInfo` returned by a successful `os.Stat`. -/
structure FileInfo where
  kind : FileKind
deriving DecidableEq, Repr

/-- Go's `info.IsDir()`. -/
def FileInfo.IsDir (info : FileInfo) : Bool := decide (info.kind = FileKind.directory)

/-- The three outcomes of `os.Stat(filename)`: `(info, nil)`, `(nil, err)` with
`os.IsNotExist(err)`, and `(nil, err)` with any other error. -/
inductive StatResult where
  | ok (info : FileInfo)
  | notExist (err : GoError)
  | failed (err : GoError)
deriving DecidableEq, Repr

/-- First component of the pair `os.Stat` returns: `nil` unless the call succeeded. -/
def StatResult.info : StatResult → Option FileInfo
  | .ok info => some info
  | .notExist _ => none
  | .failed _ => none

/-- Second component of the pair `os.Stat` returns. -/
def StatResult.err : StatResult → Option GoError
  | .ok _ => none
  | .notExist e => some e
  | .failed e => some e

/-- Go's `os.IsNotExist(err)` on the error of a stat outcome. -/
def StatResult.IsNotExist : StatResult → Bool
  | .ok _ => false
  | .notExist _ => true
  | .failed _ => false

/-- An open `*os.File`, described by what `ioutil.ReadAll` returns on it: the bytes
read (as text) and the error of the read, `none` when the end of file was reached. -/
structure File where
  data : String
  readErr : Option GoError
deriving DecidableEq, Repr

/-- Go's `ioutil.ReadAll(f)`: the bytes read before the error or the end of file, and the error. -/
def ReadAll (f : File) : String × Option GoError := (f.data, f.readErr)

/-- State of the file system together with the JSON decoder: `Stat` is `os.Stat`, `Open`
is `os.Open`, and `Unmarshal b` is the outcome of `json.Unmarshal(b, &config)` on a zero
`config`. Every call is taken to return; an `os.Open` that blocks for ever (a named pipe
that nobody writes to) is outside this model. -/
structure Env where
  Stat : String → StatResult
  Open : String → Except GoError File
  Unmarshal : String → Except GoError config

/-! ## The loader -/

/-- Go's `errors.New`. -/
def errorsNew (text : String) : GoError := ⟨text⟩

/-- The function `fileExists` of the source. `info.IsDir()` on a nil `info` panics. -/
def fileExists (env : Env) (filename : String) : Except Panic Bool :=
  let r := env.Stat filename
  if r.IsNotExist then Except.ok false
  else
    match r.info with
    | none => Except.error Panic.nilDereference
    | some info => Except.ok (!info.IsDir)

/-- The function `unmarshalCfg` of the source; the result pair is `(*config, error)`. -/
def unmarshalCfg (env : Env) (file : String) : Except Panic (Option config × Option GoError) :=
  match fileExists env file with
  | Except.error p => Except.error p
  | Except.ok false =>
    Except.ok (none, some (errorsNew "file does not exist or is a directory"))
  | Except.ok true =>
    match env.Open file with
    | Except.error err => Except.ok (none, some err)
    | Except.ok cfg =>
      let bytes := (ReadAll cfg).1
      match env.Unmarshal bytes with
      | Except.error err => Except.ok (none, some err)
      | Except.ok config => Except.ok (some config, none)

/-- Body of both inner loops: `m[i.Name] = append(m[i.Name], i)`. -/
def appendIdent (m : BannedIdents) (i : BannedIdent) : BannedIdents :=
  m.assign i.Name (m.index i.Name ++ [i])

/-- The loop `for _, file := range files` of `ReadBannedImports`, from the map built so far. -/
def ReadBannedImports.loop (env : Env) :
    List String → BannedIdents → Except Panic (Option BannedIdents × Option GoError)
  | [], imports => Except.ok (some imports, none)
  | file :: rest, imports =>
    match unmarshalCfg env file with
    | Except.error p => Except.error p
    | Except.ok (_, some err) => Except.ok (none, some err)
    | Except.ok (none, none) => Except.error Panic.nilDereference
    | Except.ok (some config, none) =>
      ReadBannedImports.loop env rest (config.Imports.foldl appendIdent imports)

/-- The function `ReadBannedImports` of the source. -/
def ReadBannedImports (env : Env) (files : List String) :
    Except Panic (Option BannedIdents × Option GoError) :=
  ReadBannedImports.loop env files BannedIdents.make

/-- The loop `for _, file := range files` of `ReadBannedFunctions`, from the map built so far. -/
def ReadBannedFunctions.loop (env : Env) :
    List String → BannedIdents → Except Panic (Option BannedIdents × Option GoError)
  | [], fns => Except.ok (some fns, none)
  | file :: rest, fns =>
    match unmarshalCfg env file with
    | Except.error p => Except.error p
    | Except.ok (_, some err) => Except.ok (none, some err)
    | Except.ok (none, none) => Except.error Panic.nilDereference
    | Except.ok (some config, none) =>
      ReadBannedFunctions.loop env rest (config.Functions.foldl appendIdent fns)

/-- The function `ReadBannedFunctions` of the source. -/
def ReadBannedFunctions (env : Env) (files : List String) :
    Except Panic (Option BannedIdents × Option GoError) :=
  ReadBannedFunctions.loop env files BannedIdents.make

/-! ## Vocabulary of the statements -/

/-- Return value of `unmarshalCfg` for a file that loads as the document `c`. -/
def loaded (c : config) : Except Panic (Option config × Option GoError) :=
  Except.ok (some c, none)

/-- Return value of `unmarshalCfg` for a path that opens: the error of the decoder on the
bytes read, or the decoded document (lines 87-94 of the source). -/
def decoded (env : Env) (cfg : File) : Except Panic (Option config × Option GoError) :=
  match env.Unmarshal (ReadAll cfg).1 with
  | Except.error err => Except.ok (none, some err)
  | Except.ok c => Except.ok (some c, none)

/-- The document with its `imports` and `functions` sections exchanged. -/
def config.swap (c : config) : config := ⟨c.Functions, c.Imports⟩

/-- The environment in which every document has its two sections exchanged: same file
system, and the decoder returns the exchanged document where it returned a document. -/
def Env.swapSections (env : Env) : Env where
  Stat := env.Stat
  Open := env.Open
  Unmarshal := fun b =>
    match env.Unmarshal b with
    | Except.ok c => Except.ok c.swap
    | Except.error e => Except.error e

/-- Two environments that differ at most in the `functions` sections of their documents. -/
def agreeOnImports (env env' : Env) : Prop :=
  env.Stat = env'.Stat ∧ env.Open = env'.Open ∧
    ∀ b, (env.Unmarshal b).map config.Imports = (env'.Unmarshal b).map config.Imports

/-- Two environments that differ at most in the `imports` sections of their documents. -/
def agreeOnFunctions (env env' : Env) : Prop :=
  env.Stat = env'.Stat ∧ env.Open = env'.Open ∧
    ∀ b, (env.Unmarshal b).map config.Functions = (env'.Unmarshal b).map config.Functions

/-! ## Sample environment -/

/-- Decoder of the sample environment. Each listed document is mapped to what
`json.Unmarshal` stores in a zero `config` for it (a missing field keeps its zero value)
and the text `oops` to the syntax error it reports. The last line, the error of the empty
input, makes the function total: no file that is opened below has such contents. -/
def sampleUnmarshal (b : String) : Except GoError config :=
  if b = "\x7b\x7d" then Except.ok ⟨[], []⟩
  else if b = "\x7b\"imports\":[\x7b\"name\":\"\",\"msg\":\"m\"\x7d],\"functions\":[\x7b\"msg\":\"n\"\x7d]\x7d" then
    Except.ok ⟨[⟨"", "m", []⟩], [⟨"", "n", []⟩]⟩
  else if b = "\x7b\"imports\":[\x7b\"name\":\"fmt\",\"msg\":\"A\"\x7d]\x7d" then
    Except.ok ⟨[⟨"fmt", "A", []⟩], []⟩
  else if b = "\x7b\"imports\":[\x7b\"name\":\"fmt\",\"msg\":\"B\",\"exemptions\":[\x7b\"justification\":\"j\",\"allowedDir\":\"main\"\x7d]\x7d]\x7d" then
    Except.ok ⟨[⟨"fmt", "B", [⟨"j", "main"⟩]⟩], []⟩
  else if b = "oops" then Except.error ⟨"invalid character \x27o\x27 looking for beginning of value"⟩
  else Except.error ⟨"unexpected end of JSON input"⟩

/-- Outcome of `os.Stat` in the sample environment: six regular files, a named pipe, a
socket, a directory, a path below a directory that may not be searched, and nothing else;
a path that continues the name of one of the files, the pipe or the socket with a slash
fails with `not a directory`, which is not a not-exist error. -/
def sampleStat (f : String) : StatResult :=
  if f = "a.json" ∨ f = "b.json" ∨ f = "noname.json" ∨ f = "trunc.json" ∨ f = "bad1.json"
      ∨ f = "bad2.json" then
    StatResult.ok ⟨FileKind.regular⟩
  else if f = "pipe" then StatResult.ok ⟨FileKind.namedPipe⟩
  else if f = "sock" then StatResult.ok ⟨FileKind.socket⟩
  else if f = "dir" then StatResult.ok ⟨FileKind.directory⟩
  else if f = "secret/c.json" then StatResult.failed ⟨"stat secret/c.json: permission denied"⟩
  else if "a.json/".data <+: f.data ∨ "b.json/".data <+: f.data ∨ "noname.json/".data <+: f.data
      ∨ "trunc.json/".data <+: f.data ∨ "bad1.json/".data <+: f.data
      ∨ "bad2.json/".data <+: f.data ∨ "pipe/".data <+: f.data ∨ "sock/".data <+: f.data then
    StatResult.failed ⟨"stat " ++ f ++ ": not a directory"⟩
  else StatResult.notExist ⟨"stat " ++ f ++ ": no such file or directory"⟩

/-- Outcome of `os.Open` in the sample environment. Reading `trunc.json` fails after the
first two bytes of the file; `bad1.json` and `bad2.json` have the same contents; the
socket cannot be opened. -/
def sampleOpen (f : String) : Except GoError File :=
  if f = "a.json" then
    Except.ok ⟨"\x7b\"imports\":[\x7b\"name\":\"fmt\",\"msg\":\"A\"\x7d]\x7d", none⟩
  else if f = "b.json" then
    Except.ok ⟨"\x7b\"imports\":[\x7b\"name\":\"fmt\",\"msg\":\"B\",\"exemptions\":[\x7b\"justification\":\"j\",\"allowedDir\":\"main\"\x7d]\x7d]\x7d", none⟩
  else if f = "noname.json" then
    Except.ok ⟨"\x7b\"imports\":[\x7b\"name\":\"\",\"msg\":\"m\"\x7d],\"functions\":[\x7b\"msg\":\"n\"\x7d]\x7d", none⟩
  else if f = "trunc.json" then
    Except.ok ⟨"\x7b\x7d", some ⟨"read trunc.json: input/output error"⟩⟩
  else if f = "bad1.json" ∨ f = "bad2.json" then Except.ok ⟨"oops", none⟩
  else if f = "pipe" then Except.ok ⟨"\x7b\x7d", none⟩
  else if f = "sock" then Except.error ⟨"open sock: no such device or address"⟩
  else if f = "dir" then Except.ok ⟨"", some ⟨"read dir: is a directory"⟩⟩
  else if f = "secret/c.json" then Except.error ⟨"open secret/c.json: permission denied"⟩
  else Except.error ⟨"open " ++ f ++ ": no such file or directory"⟩

/-- The sample environment. -/
def sampleEnv : Env where
  Stat := sampleStat
  Open := sampleOpen
  Unmarshal := sampleUnmarshal

/-! ## Go maps: lookup after assignment -/

theorem lookupEntries_assignEntries (k k' : String) (v : List BannedIdent)
    (l : List (String × List BannedIdent)) :
    lookupEntries k' (assignEntries k v l) = if k = k' then some v else lookupEntries k' l := by
  induction l with
  | nil => simp [assignEntries, lookupEntries]
  | cons p rest ih =>
    obtain ⟨a, b⟩ := p
    by_cases hak : a = k
    · subst hak
      by_cases hk : a = k' <;> simp [assignEntries, lookupEntries, hk]
    · by_cases hk : k = k'
      · subst hk
        simp [assignEntries, lookupEntries, hak, ih]
      · simp [assignEntries, lookupEntries, hak, ih, hk]

theorem index_appendIdent (m : BannedIdents) (i : BannedIdent) (X : String) :
    (appendIdent m i).index X = m.index X ++ [i].filter (fun j => decide (j.Name = X)) := by
  unfold appendIdent BannedIdents.index BannedIdents.assign
  simp only [lookupEntries_assignEntries]
  by_cases h : i.Name = X
  · subst h
    simp
  · simp [h]

theorem hasKey_appendIdent (m : BannedIdents) (i : BannedIdent) (X : String) :
    (appendIdent m i).hasKey X = (m.hasKey X || decide (i.Name = X)) := by
  unfold appendIdent BannedIdents.hasKey BannedIdents.assign
  simp only [lookupEntries_assignEntries]
  by_cases h : i.Name = X <;> simp [h]

theorem index_foldl_appendIdent (l : List BannedIdent) (m : BannedIdents) (X : String) :
    (l.foldl appendIdent m).index X = m.index X ++ l.filter (fun j => decide (j.Name = X)) := by
  induction l generalizing m with
  | nil => simp
  | cons i rest ih =>
    rw [List.foldl_cons, ih, index_appendIdent]
    by_cases h : i.Name = X <;> simp [List.filter_cons, h]

theorem hasKey_foldl_appendIdent (l : List BannedIdent) (m : BannedIdents) (X : String) :
    (l.foldl appendIdent m).hasKey X = (m.hasKey X || l.any (fun j => decide (j.Name = X))) := by
  induction l generalizing m with
  | nil => simp
  | cons i rest ih =>
    rw [List.foldl_cons, ih, hasKey_appendIdent]
    simp [Bool.or_assoc]

theorem index_make (X : String) : BannedIdents.make.index X = [] := rfl

theorem hasKey_make (X : String) : BannedIdents.make.hasKey X = false := rfl

/-! ## The loops on files that load -/

theorem imports_loop_loaded (env : Env) (files : List String) (cfgs : List config)
    (m : BannedIdents) (h : files.map (unmarshalCfg env) = cfgs.map loaded) :
    ReadBannedImports.loop env files m
      = Except.ok (some ((cfgs.flatMap config.Imports).foldl appendIdent m), none) := by
  induction files generalizing cfgs m with
  | nil =>
    cases cfgs with
    | nil => simp [ReadBannedImports.loop]
    | cons c cs => simp at h
  | cons f rest ih =>
    cases cfgs with
    | nil => simp at h
    | cons c cs =>
      simp only [List.map_cons, List.cons.injEq] at h
      obtain ⟨hf, hrest⟩ := h
      simp only [ReadBannedImports.loop, hf, loaded, List.flatMap_cons, List.foldl_append]
      exact ih cs _ hrest

theorem imports_loop_first_error (env : Env) (pre : List String) (cfgs : List config)
    (f : String) (post : List String) (c : Option config) (e : GoError) (m : BannedIdents)
    (hpre : pre.map (unmarshalCfg env) = cfgs.map loaded)
    (hf : unmarshalCfg env f = Except.ok (c, some e)) :
    ReadBannedImports.loop env (pre ++ f :: post) m = Except.ok (none, some e) := by
  induction pre generalizing cfgs m with
  | nil => simp [ReadBannedImports.loop, hf]
  | cons p rest ih =>
    cases cfgs with
    | nil => simp at hpre
    | cons c cs =>
      simp only [List.map_cons, List.cons.injEq] at hpre
      obtain ⟨hp, hrest⟩ := hpre
      simp only [List.cons_append, ReadBannedImports.loop, hp, loaded]
      exact ih cs _ hrest

/-! ## Exchanging the two sections -/

theorem fileExists_congr (env env' : Env) (h : env.Stat = env'.Stat) (f : String) :
    fileExists env f = fileExists env' f := by
  simp [fileExists, h]

theorem unmarshalCfg_swapSections (env : Env) (f : String) :
    (∃ c, unmarshalCfg env f = loaded c ∧ unmarshalCfg env.swapSections f = loaded c.swap) ∨
    (unmarshalCfg env.swapSections f = unmarshalCfg env f ∧ ∀ c, unmarshalCfg env f ≠ loaded c) := by
  have hfe : fileExists env.swapSections f = fileExists env f := fileExists_congr _ _ rfl f
  unfold unmarshalCfg
  rw [hfe]
  rcases hx : fileExists env f with p | b
  · right; simp [loaded]
  · cases b with
    | false => right; simp [loaded]
    | true =>
      simp only [Env.swapSections]
      rcases ho : env.Open f with e | cfg
      · right; simp [loaded]
      · simp only
        rcases hu : env.Unmarshal (ReadAll cfg).1 with e | c
        · right; simp [loaded]
        · left; exact ⟨c, by simp [loaded], by simp [loaded]⟩

theorem functions_loop_eq_swap (env : Env) (files : List String) (m : BannedIdents) :
    ReadBannedFunctions.loop env files m = ReadBannedImports.loop env.swapSections files m := by
  induction files generalizing m with
  | nil => simp [ReadBannedFunctions.loop, ReadBannedImports.loop]
  | cons f rest ih =>
    rcases unmarshalCfg_swapSections env f with ⟨c, h1, h2⟩ | ⟨h1, h2⟩
    · simp only [ReadBannedFunctions.loop, ReadBannedImports.loop, h1, h2, loaded]
      exact ih _
    · simp only [ReadBannedFunctions.loop, ReadBannedImports.loop, h1]
      rcases hr : unmarshalCfg env f with p | ⟨_ | c, _ | e⟩
      · rfl
      · rfl
      · rfl
      · exact absurd hr (h2 c)
      · rfl

theorem imports_loop_err_congr (env env' : Env)
    (h : ∀ f, (∃ c c', unmarshalCfg env f = loaded c ∧ unmarshalCfg env' f = loaded c') ∨
      (unmarshalCfg env' f = unmarshalCfg env f ∧ ∀ c, unmarshalCfg env f ≠ loaded c))
    (files : List String) (m m' : BannedIdents) :
    (ReadBannedImports.loop env files m).map Prod.snd
      = (ReadBannedImports.loop env' files m').map Prod.snd := by
  induction files generalizing m m' with
  | nil => simp [ReadBannedImports.loop, Except.map]
  | cons f rest ih =>
    rcases h f with ⟨c, c', h1, h2⟩ | ⟨h1, h2⟩
    · simp only [ReadBannedImports.loop, h1, h2, loaded]
      exact ih _ _
    · simp only [ReadBannedImports.loop, h1]
      rcases hr : unmarshalCfg env f with p | ⟨_ | c, _ | e⟩
      · rfl
      · rfl
      · rfl
      · exact absurd hr (h2 c)
      · rfl

theorem unmarshalCfg_agreeOnImports (env env' : Env) (h : agreeOnImports env env') (f : String) :
    (∃ c c', unmarshalCfg env f = loaded c ∧ unmarshalCfg env' f = loaded c' ∧
      c.Imports = c'.Imports) ∨
    (unmarshalCfg env' f = unmarshalCfg env f ∧ ∀ c, unmarshalCfg env f ≠ loaded c) := by
  obtain ⟨hs, ho, hu⟩ := h
  have hfe : fileExists env' f = fileExists env f := fileExists_congr _ _ hs.symm f
  unfold unmarshalCfg
  rw [hfe, ← ho]
  rcases hx : fileExists env f with p | b
  · right; simp [loaded]
  · cases b with
    | false => right; simp [loaded]
    | true =>
      rcases hop : env.Open f with e | cfg
      · right; simp [loaded]
      · simp only
        have hb := hu (ReadAll cfg).1
        rcases h1 : env.Unmarshal (ReadAll cfg).1 with e | c <;>
          rcases h2 : env'.Unmarshal (ReadAll cfg).1 with e' | c' <;>
          simp [h1, h2, Except.map] at hb
        · right; simp [loaded, hb]
        · left; exact ⟨c, c', by simp [loaded], by simp [loaded], hb⟩

theorem imports_loop_agree (env env' : Env) (h : agreeOnImports env env')
    (files : List String) (m : BannedIdents) :
    ReadBannedImports.loop env files m = ReadBannedImports.loop env' files m := by
  induction files generalizing m with
  | nil => simp [ReadBannedImports.loop]
  | cons f rest ih =>
    rcases unmarshalCfg_agreeOnImports env env' h f with ⟨c, c', h1, h2, h3⟩ | ⟨h1, h2⟩
    · simp only [ReadBannedImports.loop, h1, h2, loaded, h3]
      exact ih _
    · simp only [ReadBannedImports.loop, h1]
      rcases hr : unmarshalCfg env f with p | ⟨_ | c, _ | e⟩
      · rfl
      · rfl
      · rfl
      · exact absurd hr (h2 c)
      · rfl

theorem agreeOnImports_swap (env env' : Env) (h : agreeOnFunctions env env') :
    agreeOnImports env.swapSections env'.swapSections := by
  obtain ⟨hs, ho, hu⟩ := h
  refine ⟨hs, ho, fun b => ?_⟩
  have hb := hu b
  simp only [Env.swapSections]
  rcases h1 : env.Unmarshal b with e | c <;>
    rcases h2 : env'.Unmarshal b with e' | c' <;>
    simp [h1, h2, Except.map, config.swap] at hb ⊢
  · exact hb
  · exact hb

theorem filter_flatMap_singletons (sel : config → List BannedIdent) (q : BannedIdent → Bool)
    (cfgs : List config) (es : List BannedIdent)
    (h : cfgs.map (fun c => (sel c).filter q) = es.map (fun e => [e])) :
    (cfgs.flatMap sel).filter q = es := by
  induction cfgs generalizing es with
  | nil =>
    cases es with
    | nil => rfl
    | cons e rest => simp at h
  | cons c cs ih =>
    cases es with
    | nil => simp at h
    | cons e rest =>
      simp only [List.map_cons, List.cons.injEq] at h
      rw [List.flatMap_cons, List.filter_append, h.1, ih rest h.2]
      rfl

theorem functions_loop_loaded (env : Env) (files : List String) (cfgs : List config)
    (m : BannedIdents) (h : files.map (unmarshalCfg env) = cfgs.map loaded) :
    ReadBannedFunctions.loop env files m
      = Except.ok (some ((cfgs.flatMap config.Functions).foldl appendIdent m), none) := by
  induction files generalizing cfgs m with
  | nil =>
    cases cfgs with
    | nil => simp [ReadBannedFunctions.loop]
    | cons c cs => simp at h
  | cons f rest ih =>
    cases cfgs with
    | nil => simp at h
    | cons c cs =>
      simp only [List.map_cons, List.cons.injEq] at h
      obtain ⟨hf, hrest⟩ := h
      simp only [ReadBannedFunctions.loop, hf, loaded, List.flatMap_cons, List.foldl_append]
      exact ih cs _ hrest

theorem hasKey_merged_iff (sel : config → List BannedIdent) (cfgs : List config) (X : String) :
    ((cfgs.flatMap sel).foldl appendIdent BannedIdents.make).hasKey X = true ↔
      ∃ c ∈ cfgs, ∃ i ∈ sel c, i.Name = X := by
  rw [hasKey_foldl_appendIdent, hasKey_make, Bool.false_or, List.any_eq_true]
  simp only [List.mem_flatMap, decide_eq_true_eq]
  constructor
  · rintro ⟨i, ⟨c, hc, hi⟩, hX⟩
    exact ⟨c, hc, i, hi, hX⟩
  · rintro ⟨c, hc, i, hi, hX⟩
    exact ⟨i, ⟨c, hc, hi⟩, hX⟩

/-! ## Files that do not load -/

theorem fileExists_eq (env : Env) (f : String) :
    fileExists env f =
      match env.Stat f with
      | StatResult.ok info => Except.ok (!info.IsDir)
      | StatResult.notExist _ => Except.ok false
      | StatResult.failed _ => Except.error Panic.nilDereference := by
  unfold fileExists
  cases env.Stat f <;> simp [StatResult.IsNotExist, StatResult.info]

theorem unmarshalCfg_returns (env : Env) (f : String) (h : ∀ e, env.Stat f ≠ StatResult.failed e) :
    (∃ c, unmarshalCfg env f = loaded c) ∨ ∃ e, unmarshalCfg env f = Except.ok (none, some e) := by
  unfold unmarshalCfg
  rw [fileExists_eq]
  rcases hs : env.Stat f with info | e0 | e0
  · dsimp only
    cases hd : info.IsDir
    · simp only [Bool.not_false]
      rcases ho : env.Open f with e | cfg
      · right; exact ⟨e, rfl⟩
      · simp only
        rcases hu : env.Unmarshal (ReadAll cfg).1 with e | c
        · right; exact ⟨e, rfl⟩
        · left; exact ⟨c, rfl⟩
    · simp only [Bool.not_true]
      right; exact ⟨_, rfl⟩
  · right; exact ⟨_, rfl⟩
  · exact absurd hs (h e0)

theorem imports_loop_error_of_mem (env : Env) (pre : List String) (p : String)
    (post : List String) (c : Option config) (e : GoError) (m : BannedIdents)
    (hpre : ∀ f ∈ pre, ∀ e0, env.Stat f ≠ StatResult.failed e0)
    (hp : unmarshalCfg env p = Except.ok (c, some e)) :
    ∃ e1, ReadBannedImports.loop env (pre ++ p :: post) m = Except.ok (none, some e1) := by
  induction pre generalizing m with
  | nil => exact ⟨e, by cases c <;> simp [ReadBannedImports.loop, hp]⟩
  | cons f rest ih =>
    have hrest : ∀ g ∈ rest, ∀ e0, env.Stat g ≠ StatResult.failed e0 :=
      fun g hg => hpre g (List.mem_cons_of_mem f hg)
    rcases unmarshalCfg_returns env f (hpre f (List.mem_cons_self f rest)) with ⟨d, hd⟩ | ⟨e2, he2⟩
    · simp only [List.cons_append, ReadBannedImports.loop, hd, loaded]
      exact ih _ hrest
    · exact ⟨e2, by simp [ReadBannedImports.loop, he2]⟩

theorem imports_loop_no_table (env : Env) (files : List String) (p : String)
    (c : Option config) (e : GoError) (m : BannedIdents)
    (hp : unmarshalCfg env p = Except.ok (c, some e)) (hmem : p ∈ files) :
    ∀ (t : BannedIdents) (e1 : Option GoError),
      ReadBannedImports.loop env files m ≠ Except.ok (some t, e1) := by
  induction files generalizing m with
  | nil => simp at hmem
  | cons f rest ih =>
    intro t e1
    rcases hr : unmarshalCfg env f with q | ⟨_ | d, _ | e2⟩
    · simp [ReadBannedImports.loop, hr]
    · simp [ReadBannedImports.loop, hr]
    · simp [ReadBannedImports.loop, hr]
    · have hne : p ≠ f := by
        intro hpf
        rw [hpf, hr] at hp
        simp at hp
      have hmem1 : p ∈ rest := by
        rcases List.mem_cons.mp hmem with h | h
        · exact absurd h hne
        · exact h
      simp only [ReadBannedImports.loop, hr]
      exact ih _ hmem1 t e1
    · simp [ReadBannedImports.loop, hr]

theorem unmarshalCfg_swapSections_error (env : Env) (p : String) (c : Option config)
    (e : GoError) (hp : unmarshalCfg env p = Except.ok (c, some e)) :
    unmarshalCfg env.swapSections p = Except.ok (c, some e) := by
  rcases unmarshalCfg_swapSections env p with ⟨d, h1, _⟩ | ⟨h1, _⟩
  · rw [hp] at h1
    simp [loaded] at h1
  · rw [h1, hp]

theorem stat_not_failed_of_returns (env : Env) (f : String)
    (r : Option config × Option GoError) (h : unmarshalCfg env f = Except.ok r) :
    ∀ e, env.Stat f ≠ StatResult.failed e := by
  intro e he
  unfold unmarshalCfg at h
  rw [fileExists_eq, he] at h
  simp at h

theorem unmarshalCfg_of_not_directory (env : Env) (p : String) (info : FileInfo)
    (hs : env.Stat p = StatResult.ok info) (hd : info.IsDir = false) :
    unmarshalCfg env p =
      match env.Open p with
      | Except.error err => Except.ok (none, some err)
      | Except.ok cfg => decoded env cfg := by
  unfold unmarshalCfg
  rw [fileExists_eq, hs]
  simp only [hd, Bool.not_false, decoded]

theorem unmarshalCfg_of_rejected (env : Env) (p : String)
    (hp : (∃ e, env.Stat p = StatResult.notExist e) ∨
      (∃ info, env.Stat p = StatResult.ok info ∧ info.IsDir = true)) :
    unmarshalCfg env p
      = Except.ok (none, some (errorsNew "file does not exist or is a directory")) := by
  unfold unmarshalCfg
  rw [fileExists_eq]
  rcases hp with ⟨e, he⟩ | ⟨info, hi, hd⟩
  · rw [he]
  · rw [hi]
    simp only [hd, Bool.not_true]

/-! ## Merging documents that load -/

/-- C1. When every file of the list loads (file `i` as document `cfgs[i]`),
`ReadBannedImports` returns a table and no error, and for every name `X` the list stored
under `X` is the concatenation of the imports sections, in file order and inside a file in
section order, restricted to the entries named `X`; `X` is a key of the table exactly when
some document has an import entry named `X`. -/
theorem ReadBannedImports_index_eq_filter (env : Env) (files : List String)
    (cfgs : List config) (h : files.map (unmarshalCfg env) = cfgs.map loaded) :
    ∃ t, ReadBannedImports env files = Except.ok (some t, none) ∧
      ∀ X : String,
        t.index X = (cfgs.flatMap config.Imports).filter (fun i => decide (i.Name = X)) ∧
        (t.hasKey X = true ↔ ∃ c ∈ cfgs, ∃ i ∈ c.Imports, i.Name = X) := by
  refine ⟨_, imports_loop_loaded env files cfgs BannedIdents.make h, fun X => ⟨?_, ?_⟩⟩
  · rw [index_foldl_appendIdent, index_make, List.nil_append]
  · rw [hasKey_foldl_appendIdent, hasKey_make, Bool.false_or, List.any_eq_true]
    simp only [List.mem_flatMap, decide_eq_true_eq]
    constructor
    · rintro ⟨i, ⟨c, hc, hi⟩, hX⟩
      exact ⟨c, hc, i, hi, hX⟩
    · rintro ⟨c, hc, i, hi, hX⟩
      exact ⟨i, ⟨c, hc, hi⟩, hX⟩

/-- Witness of C1: two files of the sample environment that both ban `fmt`. -/
theorem ReadBannedImports_index_eq_filter_witness :
    (["a.json", "b.json"].map (unmarshalCfg sampleEnv)
        = [(⟨[⟨"fmt", "A", []⟩], []⟩ : config), ⟨[⟨"fmt", "B", [⟨"j", "main"⟩]⟩], []⟩].map loaded) ∧
    ∃ t, ReadBannedImports sampleEnv ["a.json", "b.json"] = Except.ok (some t, none) ∧
      ∀ X : String,
        t.index X = (([(⟨[⟨"fmt", "A", []⟩], []⟩ : config),
            ⟨[⟨"fmt", "B", [⟨"j", "main"⟩]⟩], []⟩]).flatMap config.Imports).filter
              (fun i => decide (i.Name = X)) ∧
        (t.hasKey X = true ↔ ∃ c ∈ [(⟨[⟨"fmt", "A", []⟩], []⟩ : config),
            ⟨[⟨"fmt", "B", [⟨"j", "main"⟩]⟩], []⟩], ∃ i ∈ c.Imports, i.Name = X) :=
  ⟨by decide, ReadBannedImports_index_eq_filter sampleEnv _ _ (by decide)⟩

/-- C2. When every file of the list loads and each document has exactly one import entry
named `X` (document `i` has the entry `es[i]`), the table returned has under `X` exactly
as many entries as there are files, and its `i`-th entry is `es[i]`, so it carries the
message of the `i`-th document. The messages need not be distinct for this to hold. -/
theorem ReadBannedImports_colliding_in_order (env : Env) (files : List String)
    (cfgs : List config) (X : String) (es : List BannedIdent)
    (h : files.map (unmarshalCfg env) = cfgs.map loaded)
    (hone : cfgs.map (fun c => c.Imports.filter (fun i => decide (i.Name = X)))
      = es.map (fun e => [e])) :
    ∃ t, ReadBannedImports env files = Except.ok (some t, none) ∧
      (t.index X).length = files.length ∧ t.index X = es ∧
      (t.index X).map BannedIdent.Msg = es.map BannedIdent.Msg := by
  have hidx : ((cfgs.flatMap config.Imports).foldl appendIdent BannedIdents.make).index X = es := by
    rw [index_foldl_appendIdent, index_make, List.nil_append]
    exact filter_flatMap_singletons config.Imports _ cfgs es hone
  have hlen : es.length = files.length := by
    have h1 := congrArg List.length h
    have h2 := congrArg List.length hone
    simp only [List.length_map] at h1 h2
    omega
  refine ⟨_, imports_loop_loaded env files cfgs BannedIdents.make h, ?_, hidx, ?_⟩
  · rw [hidx, hlen]
  · rw [hidx]

/-- Witness of C2: the two sample files each ban `fmt` once, with messages `A` and `B`. -/
theorem ReadBannedImports_colliding_in_order_witness :
    ([(⟨[⟨"fmt", "A", []⟩], []⟩ : config), ⟨[⟨"fmt", "B", [⟨"j", "main"⟩]⟩], []⟩].map
        (fun c => c.Imports.filter (fun i => decide (i.Name = "fmt")))
      = [(⟨"fmt", "A", []⟩ : BannedIdent), ⟨"fmt", "B", [⟨"j", "main"⟩]⟩].map (fun e => [e])) ∧
    ∃ t, ReadBannedImports sampleEnv ["a.json", "b.json"] = Except.ok (some t, none) ∧
      (t.index "fmt").length = ["a.json", "b.json"].length ∧
      t.index "fmt" = [⟨"fmt", "A", []⟩, ⟨"fmt", "B", [⟨"j", "main"⟩]⟩] ∧
      (t.index "fmt").map BannedIdent.Msg
        = [(⟨"fmt", "A", []⟩ : BannedIdent), ⟨"fmt", "B", [⟨"j", "main"⟩]⟩].map BannedIdent.Msg :=
  ⟨by decide, ReadBannedImports_colliding_in_order sampleEnv ["a.json", "b.json"]
    [⟨[⟨"fmt", "A", []⟩], []⟩, ⟨[⟨"fmt", "B", [⟨"j", "main"⟩]⟩], []⟩] "fmt"
    [⟨"fmt", "A", []⟩, ⟨"fmt", "B", [⟨"j", "main"⟩]⟩] (by decide) (by decide)⟩

/-- C3, the code at the failing input. When the files before `f` all load and
`unmarshalCfg` returns an error `e` for `f`, `ReadBannedImports` returns the nil table
together with `e`, whatever files follow. In the sample environment the first file of
`a.json, secret/c.json, b.json` that does not load is `secret/c.json`, whose stat fails
with `permission denied`: there `ReadBannedImports` returns neither that error nor any
other, it panics, also when a missing file follows. -/
theorem ReadBannedImports_panics_at_first_failing_file :
    (∀ (env : Env) (pre : List String) (cfgs : List config) (f : String)
        (post : List String) (c : Option config) (e : GoError),
      pre.map (unmarshalCfg env) = cfgs.map loaded →
      unmarshalCfg env f = Except.ok (c, some e) →
      ReadBannedImports env (pre ++ f :: post) = Except.ok (none, some e)) ∧
    unmarshalCfg sampleEnv "a.json" = loaded ⟨[⟨"fmt", "A", []⟩], []⟩ ∧
    sampleEnv.Stat "secret/c.json"
      = StatResult.failed ⟨"stat secret/c.json: permission denied"⟩ ∧
    ReadBannedImports sampleEnv ["a.json", "secret/c.json", "b.json"]
      = Except.error Panic.nilDereference ∧
    ReadBannedImports sampleEnv ["a.json", "secret/c.json", "missing.json"]
      = Except.error Panic.nilDereference ∧
    ReadBannedImports sampleEnv ["a.json", "missing.json", "secret/c.json"]
      = Except.ok (none, some ⟨"file does not exist or is a directory"⟩) :=
  ⟨fun env pre cfgs f post c e hpre hf =>
      imports_loop_first_error env pre cfgs f post c e BannedIdents.make hpre hf,
    by decide, by decide, by decide, by decide, by decide⟩

/-- C7. When every file of the list loads, an entry is stored under the key `k` of the
table exactly when it is, field for field, an entry of the imports section of one of the
documents and its name is `k`: entries are neither altered nor combined. -/
theorem ReadBannedImports_entries_unmodified (env : Env) (files : List String)
    (cfgs : List config) (h : files.map (unmarshalCfg env) = cfgs.map loaded) :
    ∃ t, ReadBannedImports env files = Except.ok (some t, none) ∧
      ∀ (k : String) (e : BannedIdent),
        e ∈ t.index k ↔ (e.Name = k ∧ ∃ c ∈ cfgs, e ∈ c.Imports) := by
  refine ⟨_, imports_loop_loaded env files cfgs BannedIdents.make h, fun k e => ?_⟩
  rw [index_foldl_appendIdent, index_make, List.nil_append, List.mem_filter, List.mem_flatMap,
    decide_eq_true_eq]
  exact And.comm

/-- Witness of C7: `a.json` bans `fmt` without exemptions, the colliding `b.json` bans it
with an exemption. -/
theorem ReadBannedImports_entries_unmodified_witness :
    ∃ t, ReadBannedImports sampleEnv ["a.json", "b.json"] = Except.ok (some t, none) ∧
      ∀ (k : String) (e : BannedIdent),
        e ∈ t.index k ↔ (e.Name = k ∧ ∃ c ∈ [(⟨[⟨"fmt", "A", []⟩], []⟩ : config),
          ⟨[⟨"fmt", "B", [⟨"j", "main"⟩]⟩], []⟩], e ∈ c.Imports) :=
  ReadBannedImports_entries_unmodified sampleEnv ["a.json", "b.json"]
    [⟨[⟨"fmt", "A", []⟩], []⟩, ⟨[⟨"fmt", "B", [⟨"j", "main"⟩]⟩], []⟩] (by decide)

/-! ## Names are not validated -/

/-- C4, counterexample. The sample file `noname.json` has an import entry and a function
entry whose name is empty; it loads, and both readers return a table with the empty
string as key and no error. -/
theorem empty_name_is_stored :
    unmarshalCfg sampleEnv "noname.json" = loaded ⟨[⟨"", "m", []⟩], [⟨"", "n", []⟩]⟩ ∧
    ReadBannedImports sampleEnv ["noname.json"]
      = Except.ok (some ⟨[("", [⟨"", "m", []⟩])]⟩, none) ∧
    ReadBannedFunctions sampleEnv ["noname.json"]
      = Except.ok (some ⟨[("", [⟨"", "n", []⟩])]⟩, none) ∧
    BannedIdents.hasKey ⟨[("", [⟨"", "m", []⟩])]⟩ "" = true ∧
    BannedIdents.hasKey ⟨[("", [⟨"", "n", []⟩])]⟩ "" = true := by
  decide

/-- C4, amended. The readers do not check names: when every file of the list loads,
`ReadBannedImports` (resp. `ReadBannedFunctions`) returns a table and no error, and the
empty string is a key of that table exactly when some document has an import (resp.
function) entry whose name is empty. -/
theorem empty_name_key_iff (env : Env) (files : List String) (cfgs : List config)
    (h : files.map (unmarshalCfg env) = cfgs.map loaded) :
    (∃ t, ReadBannedImports env files = Except.ok (some t, none) ∧
      (t.hasKey "" = true ↔ ∃ c ∈ cfgs, ∃ i ∈ c.Imports, i.Name = "")) ∧
    (∃ t, ReadBannedFunctions env files = Except.ok (some t, none) ∧
      (t.hasKey "" = true ↔ ∃ c ∈ cfgs, ∃ i ∈ c.Functions, i.Name = "")) :=
  ⟨⟨_, imports_loop_loaded env files cfgs BannedIdents.make h,
      hasKey_merged_iff config.Imports cfgs ""⟩,
    ⟨_, functions_loop_loaded env files cfgs BannedIdents.make h,
      hasKey_merged_iff config.Functions cfgs ""⟩⟩

/-- Witness of the amended C4: a file without empty names, then the file `noname.json`. -/
theorem empty_name_key_iff_witness :
    (["a.json", "noname.json"].map (unmarshalCfg sampleEnv)
      = [(⟨[⟨"fmt", "A", []⟩], []⟩ : config), ⟨[⟨"", "m", []⟩], [⟨"", "n", []⟩]⟩].map loaded) ∧
    (∃ t, ReadBannedImports sampleEnv ["a.json", "noname.json"] = Except.ok (some t, none) ∧
      (t.hasKey "" = true ↔ ∃ c ∈ [(⟨[⟨"fmt", "A", []⟩], []⟩ : config),
        ⟨[⟨"", "m", []⟩], [⟨"", "n", []⟩]⟩], ∃ i ∈ c.Imports, i.Name = "")) ∧
    (∃ t, ReadBannedFunctions sampleEnv ["a.json", "noname.json"] = Except.ok (some t, none) ∧
      (t.hasKey "" = true ↔ ∃ c ∈ [(⟨[⟨"fmt", "A", []⟩], []⟩ : config),
        ⟨[⟨"", "m", []⟩], [⟨"", "n", []⟩]⟩], ∃ i ∈ c.Functions, i.Name = "")) :=
  ⟨by decide, empty_name_key_iff sampleEnv _ _ (by decide)⟩

/-! ## The existence check -/

/-- C5, counterexample. The sample path `pipe` names a named pipe, not a regular file;
`unmarshalCfg` does not return the not-found error for it but opens and decodes it, and
both readers succeed on the list that contains it. -/
theorem named_pipe_is_opened :
    sampleEnv.Stat "pipe" = StatResult.ok ⟨FileKind.namedPipe⟩ ∧
    unmarshalCfg sampleEnv "pipe" = loaded ⟨[], []⟩ ∧
    unmarshalCfg sampleEnv "pipe"
      ≠ Except.ok (none, some (errorsNew "file does not exist or is a directory")) ∧
    ReadBannedImports sampleEnv ["pipe"] = Except.ok (some ⟨[]⟩, none) ∧
    ReadBannedFunctions sampleEnv ["pipe"] = Except.ok (some ⟨[]⟩, none) := by
  decide

/-- C5, amended. For a path for which the stat reports a not-exist error, or reports a
directory, `unmarshalCfg` returns the error `file does not exist or is a directory`
whatever opening and decoding the path would give; neither reader returns a table for a
list that contains the path, and both return an error with the nil table when
`unmarshalCfg` returns, a document or an error, for every earlier path of the list. For
a path that the stat reports as existing and not a directory, whatever kind of file it
is, the existence check passes and `unmarshalCfg` goes on to open it: it returns the
error of `os.Open` when opening fails and the outcome of decoding the bytes read
otherwise. -/
theorem unmarshalCfg_rejects_missing_or_directory_only (env : Env) (p : String) :
    (((∃ e, env.Stat p = StatResult.notExist e) ∨
        (∃ info, env.Stat p = StatResult.ok info ∧ info.IsDir = true)) →
      (∀ env' : Env, env'.Stat = env.Stat → unmarshalCfg env' p
        = Except.ok (none, some (errorsNew "file does not exist or is a directory"))) ∧
      (∀ files : List String, p ∈ files → ∀ (t : BannedIdents) (e : Option GoError),
        ReadBannedImports env files ≠ Except.ok (some t, e) ∧
        ReadBannedFunctions env files ≠ Except.ok (some t, e)) ∧
      (∀ pre post : List String, (∀ f ∈ pre, ∃ r, unmarshalCfg env f = Except.ok r) →
        (∃ e, ReadBannedImports env (pre ++ p :: post) = Except.ok (none, some e)) ∧
        (∃ e, ReadBannedFunctions env (pre ++ p :: post) = Except.ok (none, some e)))) ∧
    (∀ info : FileInfo, env.Stat p = StatResult.ok info → info.IsDir = false →
      fileExists env p = Except.ok true ∧
      unmarshalCfg env p =
        match env.Open p with
        | Except.error err => Except.ok (none, some err)
        | Except.ok cfg => decoded env cfg) := by
  constructor
  · intro hp
    have key : ∀ env' : Env, env'.Stat = env.Stat → unmarshalCfg env' p
        = Except.ok (none, some (errorsNew "file does not exist or is a directory")) := by
      intro env' hs
      apply unmarshalCfg_of_rejected
      rw [hs]
      exact hp
    have h1 := key env rfl
    have h2 := unmarshalCfg_swapSections_error env p _ _ h1
    refine ⟨key, ?_, ?_⟩
    · intro files hmem t e
      refine ⟨imports_loop_no_table env files p _ _ _ h1 hmem t e, ?_⟩
      unfold ReadBannedFunctions
      rw [functions_loop_eq_swap]
      exact imports_loop_no_table env.swapSections files p _ _ _ h2 hmem t e
    · intro pre post hret
      have hpre : ∀ f ∈ pre, ∀ e, env.Stat f ≠ StatResult.failed e := by
        intro f hf
        obtain ⟨r, hr⟩ := hret f hf
        exact stat_not_failed_of_returns env f r hr
      refine ⟨imports_loop_error_of_mem env pre p post _ _ _ hpre h1, ?_⟩
      unfold ReadBannedFunctions
      rw [functions_loop_eq_swap]
      exact imports_loop_error_of_mem env.swapSections pre p post _ _ _ hpre h2
  · intro info hs hd
    refine ⟨?_, unmarshalCfg_of_not_directory env p info hs hd⟩
    rw [fileExists_eq, hs]
    simp only [hd, Bool.not_false]

/-- Witness of the amended C5: the sample path `dir` names a directory and is rejected
after the file `a.json`; the sample path `sock` names a socket, passes the existence
check and `unmarshalCfg` returns the error of opening it. -/
theorem unmarshalCfg_rejects_missing_or_directory_only_witness :
    sampleEnv.Stat "dir" = StatResult.ok ⟨FileKind.directory⟩ ∧
    (∃ e, ReadBannedImports sampleEnv (["a.json"] ++ "dir" :: ["b.json"])
      = Except.ok (none, some e)) ∧
    (∃ e, ReadBannedFunctions sampleEnv (["a.json"] ++ "dir" :: ["b.json"])
      = Except.ok (none, some e)) ∧
    sampleEnv.Stat "sock" = StatResult.ok ⟨FileKind.socket⟩ ∧
    fileExists sampleEnv "sock" = Except.ok true ∧
    unmarshalCfg sampleEnv "sock" =
      (match sampleEnv.Open "sock" with
      | Except.error err => Except.ok (none, some err)
      | Except.ok cfg => decoded sampleEnv cfg) ∧
    unmarshalCfg sampleEnv "sock"
      = Except.ok (none, some ⟨"open sock: no such device or address"⟩) :=
  have hdir := (unmarshalCfg_rejects_missing_or_directory_only sampleEnv "dir").1
    (Or.inr ⟨⟨FileKind.directory⟩, by decide, by decide⟩)
  have hsock := (unmarshalCfg_rejects_missing_or_directory_only sampleEnv "sock").2
    ⟨FileKind.socket⟩ (by decide) (by decide)
  have hlist := hdir.2.2 ["a.json"] ["b.json"] (fun f hf => by
    simp only [List.mem_singleton] at hf
    subst hf
    exact ⟨(some ⟨[⟨"fmt", "A", []⟩], []⟩, none), by decide⟩)
  ⟨by decide, hlist.1, hlist.2, by decide, hsock.1, hsock.2, by decide⟩

/-! ## What the errors say -/

/-- C6, counterexample. In the sample environment the two missing paths `p.json` and
`q.json` make `ReadBannedImports` return the same error, whose text contains neither
path, and so do the two malformed files `bad1.json` and `bad2.json` of equal contents. -/
theorem error_does_not_name_path :
    ReadBannedImports sampleEnv ["p.json"]
      = Except.ok (none, some ⟨"file does not exist or is a directory"⟩) ∧
    ReadBannedImports sampleEnv ["q.json"]
      = Except.ok (none, some ⟨"file does not exist or is a directory"⟩) ∧
    ¬ ("p.json".data <:+: "file does not exist or is a directory".data) ∧
    ¬ ("q.json".data <:+: "file does not exist or is a directory".data) ∧
    ReadBannedImports sampleEnv ["bad1.json"]
      = Except.ok (none, some ⟨"invalid character \x27o\x27 looking for beginning of value"⟩) ∧
    ReadBannedImports sampleEnv ["bad2.json"]
      = Except.ok (none, some ⟨"invalid character \x27o\x27 looking for beginning of value"⟩) ∧
    ¬ ("bad1.json".data <:+: "invalid character \x27o\x27 looking for beginning of value".data) ∧
    ¬ ("bad2.json".data <:+: "invalid character \x27o\x27 looking for beginning of value".data) := by
  decide

/-- C6, amended. Let the files before the failing path load. When the stat reports a
not-exist error for `p` and for `q`, `ReadBannedImports` returns for either path in that
place the same fixed error `file does not exist or is a directory`. When `p` and `q`
exist, are not directories, are opened, the same bytes are read from both and the
decoder rejects these bytes with the error `err`, `ReadBannedImports` returns `err`
unchanged for either path. The error is the same for the two paths in both cases. -/
theorem ReadBannedImports_error_same_for_paths (env : Env) (pre : List String)
    (cfgs : List config) (p q : String) (post : List String)
    (hpre : pre.map (unmarshalCfg env) = cfgs.map loaded) :
    ((∃ e, env.Stat p = StatResult.notExist e) → (∃ e, env.Stat q = StatResult.notExist e) →
      ReadBannedImports env (pre ++ p :: post)
        = Except.ok (none, some (errorsNew "file does not exist or is a directory")) ∧
      ReadBannedImports env (pre ++ q :: post)
        = Except.ok (none, some (errorsNew "file does not exist or is a directory"))) ∧
    (∀ (ip iq : FileInfo) (fp fq : File) (err : GoError),
      env.Stat p = StatResult.ok ip → ip.IsDir = false →
      env.Stat q = StatResult.ok iq → iq.IsDir = false →
      env.Open p = Except.ok fp → env.Open q = Except.ok fq →
      (ReadAll fp).1 = (ReadAll fq).1 → env.Unmarshal (ReadAll fp).1 = Except.error err →
      ReadBannedImports env (pre ++ p :: post) = Except.ok (none, some err) ∧
      ReadBannedImports env (pre ++ q :: post) = Except.ok (none, some err)) := by
  constructor
  · intro hp hq
    exact ⟨imports_loop_first_error env pre cfgs p post none _ BannedIdents.make hpre
        (unmarshalCfg_of_rejected env p (Or.inl hp)),
      imports_loop_first_error env pre cfgs q post none _ BannedIdents.make hpre
        (unmarshalCfg_of_rejected env q (Or.inl hq))⟩
  · intro ip iq fp fq err hsp hdp hsq hdq hop hoq hsame hu
    have h1 : unmarshalCfg env p = Except.ok (none, some err) := by
      rw [unmarshalCfg_of_not_directory env p ip hsp hdp, hop]
      simp only [decoded, hu]
    have h2 : unmarshalCfg env q = Except.ok (none, some err) := by
      rw [unmarshalCfg_of_not_directory env q iq hsq hdq, hoq]
      simp only [decoded, ← hsame, hu]
    exact ⟨imports_loop_first_error env pre cfgs p post none err BannedIdents.make hpre h1,
      imports_loop_first_error env pre cfgs q post none err BannedIdents.make hpre h2⟩

/-- Witness of the amended C6: after the file `a.json`, the two missing paths `p.json` and
`q.json`, and the two malformed files `bad1.json` and `bad2.json` of equal contents. -/
theorem ReadBannedImports_error_same_for_paths_witness :
    (["a.json"].map (unmarshalCfg sampleEnv) = [(⟨[⟨"fmt", "A", []⟩], []⟩ : config)].map loaded) ∧
    (ReadBannedImports sampleEnv (["a.json"] ++ "p.json" :: ["b.json"])
        = Except.ok (none, some (errorsNew "file does not exist or is a directory")) ∧
      ReadBannedImports sampleEnv (["a.json"] ++ "q.json" :: ["b.json"])
        = Except.ok (none, some (errorsNew "file does not exist or is a directory"))) ∧
    (ReadBannedImports sampleEnv (["a.json"] ++ "bad1.json" :: ["b.json"])
        = Except.ok (none, some ⟨"invalid character \x27o\x27 looking for beginning of value"⟩) ∧
      ReadBannedImports sampleEnv (["a.json"] ++ "bad2.json" :: ["b.json"])
        = Except.ok (none, some ⟨"invalid character \x27o\x27 looking for beginning of value"⟩)) :=
  ⟨by decide,
    (ReadBannedImports_error_same_for_paths sampleEnv ["a.json"] [⟨[⟨"fmt", "A", []⟩], []⟩]
      "p.json" "q.json" ["b.json"] (by decide)).1
      ⟨⟨"stat p.json: no such file or directory"⟩, by decide⟩
      ⟨⟨"stat q.json: no such file or directory"⟩, by decide⟩,
    (ReadBannedImports_error_same_for_paths sampleEnv ["a.json"] [⟨[⟨"fmt", "A", []⟩], []⟩]
      "bad1.json" "bad2.json" ["b.json"] (by decide)).2
      ⟨FileKind.regular⟩ ⟨FileKind.regular⟩ ⟨"oops", none⟩ ⟨"oops", none⟩
      ⟨"invalid character \x27o\x27 looking for beginning of value"⟩
      (by decide) (by decide) (by decide) (by decide) (by decide) (by decide) (by decide)
      (by decide)⟩

/-! ## Errors that are dropped or missed -/

/-- C8, the code at the failing input. Whenever a file passes the existence check, opens
and the decoder accepts the bytes that were read, `unmarshalCfg` returns the decoded
document and no error, whether or not the read ended with an error. The sample file
`trunc.json` is a regular file that opens, and reading it returns the two bytes of an
empty object followed by an input/output error; `unmarshalCfg` returns the empty document
and no error, and `ReadBannedImports` an empty table. -/
theorem unmarshalCfg_drops_read_error :
    (∀ (env : Env) (file : String) (info : FileInfo) (cfg : File) (c : config),
      env.Stat file = StatResult.ok info → info.IsDir = false →
      env.Open file = Except.ok cfg → env.Unmarshal (ReadAll cfg).1 = Except.ok c →
      unmarshalCfg env file = Except.ok (some c, none)) ∧
    sampleEnv.Stat "trunc.json" = StatResult.ok ⟨FileKind.regular⟩ ∧
    (sampleEnv.Open "trunc.json").map ReadAll
      = Except.ok ("\x7b\x7d", some ⟨"read trunc.json: input/output error"⟩) ∧
    unmarshalCfg sampleEnv "trunc.json" = Except.ok (some ⟨[], []⟩, none) ∧
    ReadBannedImports sampleEnv ["trunc.json"] = Except.ok (some ⟨[]⟩, none) := by
  refine ⟨?_, by decide, by decide, by decide, by decide⟩
  intro env file info cfg c hs hd ho hu
  unfold unmarshalCfg
  rw [fileExists_eq, hs]
  simp only [hd, Bool.not_false, ho, hu]

/-- C9, the code on every stat outcome and at the failing input. `fileExists` returns
whether the file is not a directory when the stat succeeds and `false` when the stat
reports that the file does not exist; on any other stat error it dereferences the nil
file info and panics, as for the sample path `secret/c.json`, and so do `unmarshalCfg`
and both readers. -/
theorem fileExists_panics_on_stat_error :
    (∀ (env : Env) (f : String), fileExists env f =
      match env.Stat f with
      | StatResult.ok info => Except.ok (!info.IsDir)
      | StatResult.notExist _ => Except.ok false
      | StatResult.failed _ => Except.error Panic.nilDereference) ∧
    sampleEnv.Stat "secret/c.json"
      = StatResult.failed ⟨"stat secret/c.json: permission denied"⟩ ∧
    fileExists sampleEnv "secret/c.json" = Except.error Panic.nilDereference ∧
    unmarshalCfg sampleEnv "secret/c.json" = Except.error Panic.nilDereference ∧
    ReadBannedImports sampleEnv ["secret/c.json"] = Except.error Panic.nilDereference ∧
    ReadBannedFunctions sampleEnv ["secret/c.json"] = Except.error Panic.nilDereference :=
  ⟨fileExists_eq, by decide, by decide, by decide, by decide, by decide⟩

/-! ## The two readers -/

/-- C10. `ReadBannedFunctions` on a list of files is `ReadBannedImports` on the same
files with the sections of every document exchanged. The two readers panic on the same
lists and return the same error (or none) on every list; the result of
`ReadBannedImports` is the same in two environments whose documents differ only in their
functions sections, and the result of `ReadBannedFunctions` is the same in two
environments whose documents differ only in their imports sections. -/
theorem ReadBannedFunctions_eq_swapped_imports (env : Env) (files : List String) :
    ReadBannedFunctions env files = ReadBannedImports env.swapSections files ∧
    (ReadBannedFunctions env files).map Prod.snd
      = (ReadBannedImports env files).map Prod.snd ∧
    (∀ env' : Env, agreeOnImports env env' →
      ReadBannedImports env files = ReadBannedImports env' files) ∧
    (∀ env' : Env, agreeOnFunctions env env' →
      ReadBannedFunctions env files = ReadBannedFunctions env' files) := by
  refine ⟨functions_loop_eq_swap env files _, ?_, ?_, ?_⟩
  · unfold ReadBannedFunctions ReadBannedImports
    rw [functions_loop_eq_swap]
    refine (imports_loop_err_congr env env.swapSections (fun f => ?_) files _ _).symm
    rcases unmarshalCfg_swapSections env f with ⟨c, h1, h2⟩ | h
    · exact Or.inl ⟨c, c.swap, h1, h2⟩
    · exact Or.inr h
  · intro env' h
    exact imports_loop_agree env env' h files _
  · intro env' h
    unfold ReadBannedFunctions
    rw [functions_loop_eq_swap, functions_loop_eq_swap]
    exact imports_loop_agree _ _ (agreeOnImports_swap env env' h) files _

end Bancheck
